import Mathlib

/-!
Verification of the RectifierSolver conduction/performance engine.

This file gives a shallow embedding of the solver code in
`src/app/solvers/` (base_solver.py, uncontrolled_half_wave.py,
controlled_half_wave.py, uncontrolled_full_wave.py,
controlled_full_wave.py, freewheeling_half_wave.py, full_wave_utils.py)
and `src/app/services/solver_factory.py`, over the real numbers.

Modelling conventions:
* Machine floats are modelled as real numbers; numpy functions that can
  produce NaN (`np.arcsin` outside [-1,1], `np.sqrt` of a negative) are
  modelled with `Option ℝ` where a claim depends on that behaviour.
* `scipy.optimize.fsolve` applied to an equation that is linear in its
  single unknown converges to the unique exact root; those roots are
  modelled in closed form.  `fsolve` applied to the transcendental
  turn-off equation is modelled by an oracle argument: a plain real for
  the half-wave solvers (the value fsolve returns, converged or not), an
  `Option ℝ` for the full-wave solvers whose call sites sit in a
  `try/except` block (`none` models the call raising an exception).
* Python raises `ZeroDivisionError` for scalar division by a float zero;
  the one place a claim exercises this (`-alpha/wTau` with `alpha` the
  integer `0` and `wTau == 0.0`) is modelled by an explicit `raises`
  predicate.
-/

noncomputable section

namespace RectifierSolver

open Real

/-- Python-level exceptions relevant to the analysed code, together with
the two error classes the specification postulates (`ConfigurationError`,
`SolverDivergenceError`).  The source never defines or raises the latter
two; they are present so that statements about them can be written. -/
inductive PyError where
  | zeroDivisionError
  | configurationError
  | solverDivergenceError
deriving DecidableEq

/-- Circuit parameters stored by `BaseRectifierSolver.__init__`
(base_solver.py lines 11-22).  The derived constants are the functions
`Config.w`, `Config.Z`, `Config.theta`, `Config.tau`, `Config.wTau`
below, mirroring the fields computed in `__init__`. -/
structure Config where
  Vm : ℝ
  f : ℝ
  R : ℝ
  L : ℝ
  Vdc : ℝ

/-- `self.w = 2 * np.pi * f` (base_solver.py line 15). -/
def Config.w (c : Config) : ℝ := 2 * π * c.f

/-- `self.Z = np.sqrt(R**2 + (self.w*L)**2)` (base_solver.py line 19). -/
def Config.Z (c : Config) : ℝ := Real.sqrt (c.R ^ 2 + (c.w * c.L) ^ 2)

/-- `self.theta = np.arctan(self.w*L/R)` (base_solver.py line 20). -/
def Config.theta (c : Config) : ℝ := Real.arctan (c.w * c.L / c.R)

/-- `self.tau = L/R` (base_solver.py line 21). -/
def Config.tau (c : Config) : ℝ := c.L / c.R

/-- `self.wTau = self.w * self.tau` (base_solver.py line 22). -/
def Config.wTau (c : Config) : ℝ := c.w * c.tau

/-- `BaseRectifierSolver.__init__` performs no validation whatsoever: it
stores the parameters and computes the derived constants.  The only way
it can fail is Python's own `ZeroDivisionError` from
`np.arctan(self.w*L/R)` / `tau = L/R` when `R == 0` (scalar float
division by zero raises in Python).  No `ConfigurationError` exists
anywhere in the code. -/
def base_solver_init (Vm f R L Vdc : ℝ) : Except PyError Config :=
  if R = 0 then .error .zeroDivisionError
  else .ok { Vm := Vm, f := f, R := R, L := L, Vdc := Vdc }

/-- `np.arcsin`: NaN (modelled `none`) outside `[-1, 1]`, the real
arcsine inside. -/
def npArcsin (x : ℝ) : Option ℝ :=
  if -1 ≤ x ∧ x ≤ 1 then some (Real.arcsin x) else none

/-- `np.sqrt`: NaN (modelled `none`) on negative input. -/
def npSqrt (x : ℝ) : Option ℝ :=
  if x < 0 then none else some (Real.sqrt x)

/-- Python `max(0, x)` where `x` may be NaN (modelled `none`): CPython
keeps the first argument unless the second compares strictly greater,
and every comparison against NaN is false, so `max(0, nan) == 0`. -/
def pymax0 (x : Option ℝ) : ℝ :=
  match x with
  | none => 0
  | some v => max 0 v

/-- `max(0, np.arcsin(min(1.0, self.Vdc/self.Vm)))`: the turn-on angle
of the uncontrolled solvers (uncontrolled_half_wave.py lines 10-11,
uncontrolled_full_wave.py lines 10-11) and the minimum firing angle
`alpha_min` of the controlled solvers (controlled_half_wave.py lines
16-17, controlled_full_wave.py lines 16-17) — all four sites use this
same formula.  Note the ratio is clamped from above only; below `-1`
the arcsine is NaN and `max(0, nan)` yields `0`. -/
def alpha_min (c : Config) : ℝ :=
  pymax0 (npArcsin (min 1 (c.Vdc / c.Vm)))

/-- `np.linspace a b n`: `n` evenly spaced points from `a` to `b`. -/
def linspace (a b : ℝ) (n : ℕ) : List ℝ :=
  (List.range n).map fun i => a + (b - a) * i / ((n : ℝ) - 1)

/-- `np.trapz y x`: composite trapezoid rule over sample points. -/
def trapz : List ℝ → List ℝ → ℝ
  | y₀ :: y₁ :: ys, x₀ :: x₁ :: xs =>
      (x₁ - x₀) * (y₀ + y₁) / 2 + trapz (y₁ :: ys) (x₁ :: xs)
  | _, _ => 0

/-- `np.mean`. -/
def npMean (l : List ℝ) : ℝ := l.sum / l.length

/-- `BaseRectifierSolver.current_function` (base_solver.py line 46):
`(Vm/Z)*sin(wt - theta) - Vdc/R + A*exp(-wt/wTau)`. -/
def current_function (c : Config) (A wt : ℝ) : ℝ :=
  (c.Vm / c.Z) * Real.sin (wt - c.theta) - c.Vdc / c.R
    + A * Real.exp (-wt / c.wTau)

/-- `self.form_factor = self.Vrms / self.Vavg if self.Vavg > 0 else 0`
(base_solver.py line 121, full_wave_utils.py line 94,
controlled_half_wave.py line 91, controlled_full_wave.py line 139). -/
def form_factor_of (Vrms Vavg : ℝ) : ℝ :=
  if 0 < Vavg then Vrms / Vavg else 0

/-- `self.ripple_factor = np.sqrt(self.form_factor**2 - 1) if self.Vavg > 0 else 0`
(base_solver.py line 124, full_wave_utils.py line 95,
controlled_full_wave.py line 140; controlled_half_wave.py line 94 writes
the same radicand as `(Vrms/Vavg)**2 - 1`).  The radicand is NOT clamped
anywhere: a negative radicand reaches `np.sqrt` and yields NaN
(modelled `none`). -/
def ripple_factor_of (Vrms Vavg : ℝ) : Option ℝ :=
  if 0 < Vavg then npSqrt ((form_factor_of Vrms Vavg) ^ 2 - 1) else some 0

/-- The scalar results assembled by `generate_results`
(base_solver.py lines 183-201): the `parameters` and `performance`
entries.  `ripple_factor` is `Option ℝ` because the source can store
NaN in it (see `ripple_factor_of`). -/
structure Result where
  alpha : ℝ
  beta : ℝ
  A : ℝ
  conducting_angle : ℝ
  conducting_time : ℝ
  Iavg : ℝ
  Irms : ℝ
  Vavg : ℝ
  Vrms : ℝ
  power : ℝ
  power_factor : ℝ
  form_factor : ℝ
  ripple_factor : Option ℝ
  efficiency : ℝ

/-- Results of a full-wave solver: the scalar results plus the
`is_continuous` flag those solvers store. -/
structure FWResult where
  toResult : Result
  is_continuous : Bool

/-- `BaseRectifierSolver.solve_rectifier` (base_solver.py lines 48-129),
run after `alpha` has been set by the child class.  `rb` is the value
returned by `fsolve(equation_for_beta, [np.pi])`; `A` is the unique root
of the linear `equation_for_A` (`(Vm/Z)*sin(alpha-theta) - Vdc/R +
A*exp(-alpha/wTau) = 0`).  This value models the non-raising executions;
see `solve_rectifier_raises` for the one way the body can raise. -/
def solve_rectifier (c : Config) (alpha rb : ℝ) : Result :=
  let A := (c.Vdc / c.R - (c.Vm / c.Z) * Real.sin (alpha - c.theta))
      * Real.exp (alpha / c.wTau)
  let beta := if rb < alpha then rb + 2 * π else rb
  let t_values := linspace alpha beta 1000
  let current_values := t_values.map (current_function c A)
  let Iavg := trapz current_values t_values / (2 * π)
  let Irms := Real.sqrt (trapz (current_values.map (· ^ 2)) t_values / (2 * π))
  let t1 := linspace 0 alpha 1000
  let v1 := t1.map fun _ => c.Vdc
  let t2 := linspace alpha beta 1000
  let v2 := t2.map fun t => c.Vm * Real.sin t
  let t3 := linspace beta (2 * π) 1000
  let v3 := t3.map fun _ => c.Vdc
  let t_all := t1 ++ t2 ++ t3
  let v_all := v1 ++ v2 ++ v3
  let Vavg := trapz v_all t_all / (2 * π)
  let Vrms := Real.sqrt (trapz (v_all.map (· ^ 2)) t_all / (2 * π))
  let Vs_rms := c.Vm / Real.sqrt 2
  let power := c.Vdc * Iavg + Irms ^ 2 * c.R
  let Pdc := Vavg * Iavg
  let Prms := Vrms * Irms
  { alpha := alpha
    beta := beta
    A := A
    conducting_angle := beta - alpha
    conducting_time := 1000 * (beta - alpha) / c.w
    Iavg := Iavg
    Irms := Irms
    Vavg := Vavg
    Vrms := Vrms
    power := power
    power_factor := if 0 < Vs_rms * Irms then power / (Vs_rms * Irms) else 0
    form_factor := form_factor_of Vrms Vavg
    ripple_factor := ripple_factor_of Vrms Vavg
    efficiency := if 0 < Prms then Pdc / Prms else 0 }

/-- The condition under which the Python body of `solve_rectifier`
raises instead of returning: in `equation_for_A` the term
`np.exp(-self.alpha/self.wTau)` divides by `self.wTau`.  When
`alpha = 0` it is the integer `0` (since `max(0, x)` with `x <= 0` or
`x` NaN returns the first argument, the int `0`), so with `wTau == 0.0`
the scalar division `0 / 0.0` raises `ZeroDivisionError` inside the
first `fsolve` call and `solve` never produces a result. -/
def solve_rectifier_raises (c : Config) (alpha : ℝ) : Prop :=
  c.wTau = 0 ∧ alpha = 0

/-- `UncontrolledHalfWaveSolver.solve` (uncontrolled_half_wave.py
lines 7-14): sets `alpha` from the circuit parameters and delegates to
`solve_rectifier`. -/
def solveUHW (c : Config) (rb : ℝ) : Result :=
  solve_rectifier c (alpha_min c) rb

/-- `ControlledHalfWaveSolver.solve` (controlled_half_wave.py
lines 13-99): sets `alpha = max(self.specified_alpha, alpha_min)`
(line 20) — there is no non-operating branch — and then repeats the body
of `BaseRectifierSolver.solve_rectifier` verbatim (lines 22-99). -/
def solveCHW (c : Config) (specified_alpha rb : ℝ) : Result :=
  solve_rectifier c (max specified_alpha (alpha_min c)) rb

/-- The even harmonic orders `2, 4, ..., 20` used by the continuous-mode
Fourier synthesis (`np.arange(2, 2*n_harmonics+1, 2)` with
`n_harmonics = 10`). -/
def harmonics : List ℕ := (List.range 10).map fun k => 2 * (k + 1)

/-- Voltage harmonic amplitude `Vn = 2*Vm/pi * (1/(n-1) - 1/(n+1))`. -/
def Vn (Vm : ℝ) (n : ℕ) : ℝ :=
  2 * Vm / π * (1 / ((n : ℝ) - 1) - 1 / ((n : ℝ) + 1))

/-- Harmonic impedance `Zn = sqrt(R**2 + (n*w*L)**2)`. -/
def Zn (c : Config) (n : ℕ) : ℝ :=
  Real.sqrt (c.R ^ 2 + ((n : ℝ) * c.w * c.L) ^ 2)

/-- `i_rms_squared = Iavg**2 + sum((Vn/Zn)**2 / 2)` over the even
harmonics (controlled_full_wave.py lines 86-101, uncontrolled_full_wave.py
lines 54-69, full_wave_utils.py lines 28-43). -/
def i_rms_sq (c : Config) (Iavg : ℝ) : ℝ :=
  Iavg ^ 2 + (harmonics.map fun n => (Vn c.Vm n / Zn c n) ^ 2 / 2).sum

/-- `v_rms_squared = Vavg**2 + sum(Vn**2 / 2)` over the even harmonics. -/
def v_rms_sq (c : Config) (Vavg : ℝ) : ℝ :=
  Vavg ^ 2 + (harmonics.map fun n => (Vn c.Vm n) ^ 2 / 2).sum

/-- The zero-conduction record built by the non-operating branch of
`ControlledFullWaveSolver.solve` (controlled_full_wave.py lines 20-37):
all currents zero, output voltage pegged at `Vdc`, `form_factor = 1`,
`ripple_factor = 0`, `efficiency = 0`, `beta = alpha = specified_alpha`. -/
def nonOperatingResult (c : Config) (specified_alpha : ℝ) : Result :=
  { alpha := specified_alpha
    beta := specified_alpha
    A := 0
    conducting_angle := 0
    conducting_time := 0
    Iavg := 0
    Irms := 0
    Vavg := c.Vdc
    Vrms := c.Vdc
    power := 0
    power_factor := 0
    form_factor := 1
    ripple_factor := some 0
    efficiency := 0 }

/-- `ControlledFullWaveSolver.current_function`, discontinuous branch
(controlled_full_wave.py line 171): the exponential is shifted by
`alpha`: `(Vm/Z)*sin(wt-theta) - Vdc/R + A*exp(-(wt-alpha)/wTau)`. -/
def CFW.current_function (c : Config) (alpha A wt : ℝ) : ℝ :=
  (c.Vm / c.Z) * Real.sin (wt - c.theta) - c.Vdc / c.R
    + A * Real.exp (-(wt - alpha) / c.wTau)

/-- `ControlledFullWaveSolver.solve` (controlled_full_wave.py
lines 13-143).  `rb = none` models the `fsolve` call for `beta` raising
(the `except` branch assigns `beta = np.pi`, line 63); `rb = some r`
models `fsolve` returning `r`, to which the single upward wrap
`if beta < alpha: beta += np.pi` is applied inside the `try` block.
`A` is the unique root of the linear `equation_for_A` (line 47, the
exponential factor is `e^0 = 1` there). -/
def solveCFW (c : Config) (specified_alpha : ℝ) (rb : Option ℝ) : FWResult :=
  if specified_alpha < alpha_min c then
    { toResult := nonOperatingResult c specified_alpha, is_continuous := false }
  else
    let alpha := specified_alpha
    let A := c.Vdc / c.R - (c.Vm / c.Z) * Real.sin (alpha - c.theta)
    let beta :=
      match rb with
      | some r => if r < alpha then r + π else r
      | none => π
    let quad :=
      if π + alpha < beta then
        let Vavg := 2 * c.Vm / π * Real.cos alpha
        let Iavg := (Vavg - c.Vdc) / c.R
        (Iavg, Real.sqrt (i_rms_sq c Iavg), Vavg, Real.sqrt (v_rms_sq c Vavg))
      else
        let t_values := linspace alpha beta 1000
        let current_values := t_values.map (CFW.current_function c alpha A)
        let Iavg := trapz current_values t_values / π
        let Irms := Real.sqrt (trapz (current_values.map (· ^ 2)) t_values / π)
        let t1 := linspace 0 alpha 1000
        let v1 := t1.map fun _ => c.Vdc
        let t2 := linspace alpha beta 1000
        let v2 := t2.map fun t => c.Vm * Real.sin t
        let t3 := linspace beta π 1000
        let v3 := t3.map fun _ => c.Vdc
        let t_all := t1 ++ t2 ++ t3
        let v_all := v1 ++ v2 ++ v3
        let Vavg := trapz v_all t_all / π
        let Vrms := Real.sqrt (trapz (v_all.map (· ^ 2)) t_all / π)
        (Iavg, Irms, Vavg, Vrms)
    let Iavg := quad.1
    let Irms := quad.2.1
    let Vavg := quad.2.2.1
    let Vrms := quad.2.2.2
    let Vs_rms := c.Vm / Real.sqrt 2
    let power := c.Vdc * Iavg + Irms ^ 2 * c.R
    let Pdc := Vavg * Iavg
    let Prms := Vrms * Irms
    { toResult :=
      { alpha := alpha
        beta := beta
        A := A
        conducting_angle := beta - alpha
        conducting_time := 1000 * (beta - alpha) / c.w
        Iavg := Iavg
        Irms := Irms
        Vavg := Vavg
        Vrms := Vrms
        power := power
        power_factor := if 0 < Vs_rms * Irms then power / (Vs_rms * Irms) else 0
        form_factor := form_factor_of Vrms Vavg
        ripple_factor := ripple_factor_of Vrms Vavg
        efficiency := if 0 < Prms then Pdc / Prms else 0 }
      is_continuous := if π + alpha < beta then true else false }

/-- `UncontrolledFullWaveSolver.current_function`, discontinuous branch
(uncontrolled_full_wave.py lines 136-141): the base current equation
masked to `[alpha, beta]`, zero outside. -/
def UFW.current_function (c : Config) (alpha beta A wt : ℝ) : ℝ :=
  if alpha ≤ wt ∧ wt ≤ beta then
    (c.Vm / c.Z) * Real.sin (wt - c.theta) - c.Vdc / c.R
      + A * Real.exp (-wt / c.wTau)
  else 0

/-- `UncontrolledFullWaveSolver.solve` (uncontrolled_full_wave.py
lines 7-111).  `rb = none` models the `fsolve` call for `beta` raising:
the `except` branch assigns `beta = self.alpha` (line 29).  The wrap
`if beta < alpha: beta += np.pi` (lines 30-31) sits outside the
`try/except` and so applies to both outcomes.  Note line 34 classifies
continuity as `beta > np.pi`, without `alpha`. -/
def solveUFW (c : Config) (rb : Option ℝ) : FWResult :=
  let alpha := alpha_min c
  let A := (c.Vdc / c.R - (c.Vm / c.Z) * Real.sin (alpha - c.theta))
      * Real.exp (alpha / c.wTau)
  let beta0 :=
    match rb with
    | some r => r
    | none => alpha
  let beta := if beta0 < alpha then beta0 + π else beta0
  let quad :=
    if π < beta then
      let Vavg := 2 * c.Vm / π
      let Iavg := (Vavg - c.Vdc) / c.R
      (Iavg, Real.sqrt (i_rms_sq c Iavg), Vavg, Real.sqrt (v_rms_sq c Vavg))
    else
      let t_values := linspace alpha beta 1000
      let current_values := t_values.map (UFW.current_function c alpha beta A)
      let Iavg := trapz current_values t_values / π
      let Irms := Real.sqrt (trapz (current_values.map (· ^ 2)) t_values / π)
      let t1 := linspace 0 alpha 1000
      let v1 := t1.map fun _ => c.Vdc
      let t2 := linspace alpha beta 1000
      let v2 := t2.map fun t => c.Vm * Real.sin t
      let t3 := linspace beta π 1000
      let v3 := t3.map fun _ => c.Vdc
      let t_all := t1 ++ t2 ++ t3
      let v_all := v1 ++ v2 ++ v3
      let Vavg := trapz v_all t_all / π
      let Vrms := Real.sqrt (trapz (v_all.map (· ^ 2)) t_all / π)
      (Iavg, Irms, Vavg, Vrms)
  let Iavg := quad.1
  let Irms := quad.2.1
  let Vavg := quad.2.2.1
  let Vrms := quad.2.2.2
  let Vs_rms := c.Vm / Real.sqrt 2
  let power := c.Vdc * Iavg + Irms ^ 2 * c.R
  let Pdc := Vavg * Iavg
  let Prms := Vrms * Irms
  { toResult :=
    { alpha := alpha
      beta := beta
      A := A
      conducting_angle := beta - alpha
      conducting_time := 1000 * (beta - alpha) / c.w
      Iavg := Iavg
      Irms := Irms
      Vavg := Vavg
      Vrms := Vrms
      power := power
      power_factor := if 0 < Vs_rms * Irms then power / (Vs_rms * Irms) else 0
      form_factor := form_factor_of Vrms Vavg
      ripple_factor := ripple_factor_of Vrms Vavg
      efficiency := if 0 < Prms then Pdc / Prms else 0 }
    is_continuous := if π < beta then true else false }

/-- `FreewheelingHalfWaveSolver.__init__` (freewheeling_half_wave.py
lines 8-11): the `Vdc` parameter is accepted for compatibility but the
base constructor is called with the literal `0`. -/
def FWHW_init (Vm f R L Vdc : ℝ) : Config :=
  { Vm := Vm, f := f, R := R, L := L, Vdc := 0 }

/-- The half-wave freewheeling branch of `create_solver`
(solver_factory.py lines 57-58): `FWHW(circuit_type, Vm, f, R, L)` —
the caller-supplied `Vdc` (and `firing_angle`) are not forwarded at
all, so `FreewheelingHalfWaveSolver.__init__` receives its default
`Vdc = 0`. -/
def create_solver_half_fwd (Vm f R L Vdc firing_angle : ℝ) : Config :=
  FWHW_init Vm f R L 0

/-- `exp(-pi/wTau)`, the decay factor over one half-period, common to
both freewheeling steady-state equations. -/
def FW.E (c : Config) : ℝ := Real.exp (-π / c.wTau)

/-- `i_0_pos = (Vm/Z)*sin(-theta) + A` (freewheeling_half_wave.py
line 27): main-diode-branch current at angle `0`. -/
def FW.i_0_pos (c : Config) (A : ℝ) : ℝ :=
  (c.Vm / c.Z) * Real.sin (-c.theta) + A

/-- `i_2pi_neg = B * exp(-(2*pi - pi)/wTau)` (freewheeling_half_wave.py
line 30): freewheeling-branch current at angle `2*pi`. -/
def FW.i_2pi_neg (c : Config) (B : ℝ) : ℝ :=
  B * Real.exp (-(2 * π - π) / c.wTau)

/-- `i_pi_pos = (Vm/Z)*sin(pi - theta) + A*exp(-pi/wTau)`
(freewheeling_half_wave.py line 36): main-diode-branch current at `pi`. -/
def FW.i_pi_pos (c : Config) (A : ℝ) : ℝ :=
  (c.Vm / c.Z) * Real.sin (π - c.theta) + A * Real.exp (-π / c.wTau)

/-- `i_pi_neg = B` (freewheeling_half_wave.py line 39):
freewheeling-branch current at `pi`. -/
def FW.i_pi_neg (B : ℝ) : ℝ := B

/-- The `B` component of the pair returned by
`fsolve(equations, [0.1, 0.1])` (freewheeling_half_wave.py line 48):
the system `equations` is linear in `(A, B)` with matrix
`[[1, -E], [E, -1]]`, so when `E^2 - 1` is nonzero `fsolve` converges to
the unique exact solution, written here in closed form. -/
def FW.B (c : Config) : ℝ :=
  ((c.Vm / c.Z) * Real.sin (-c.theta) * FW.E c
      - (c.Vm / c.Z) * Real.sin (π - c.theta)) / (FW.E c ^ 2 - 1)

/-- The `A` component of the solved pair: from the periodicity equation,
`A = B*E - (Vm/Z)*sin(-theta)`. -/
def FW.A (c : Config) : ℝ :=
  FW.B c * FW.E c - (c.Vm / c.Z) * Real.sin (-c.theta)

/-- `FreewheelingHalfWaveSolver.current_function`
(freewheeling_half_wave.py lines 119-126): main-diode equation before
`pi`, freewheeling decay after — note it carries no `-Vdc/R` term. -/
def FW.current_function (c : Config) (A B wt : ℝ) : ℝ :=
  if wt < π then
    (c.Vm / c.Z) * Real.sin (wt - c.theta) + A * Real.exp (-wt / c.wTau)
  else
    B * Real.exp (-(wt - π) / c.wTau)

/-- `FreewheelingHalfWaveSolver.solve` (freewheeling_half_wave.py
lines 13-117): `alpha = 0` and `beta = pi` unconditionally; `(A, B)`
from the two-unknown steady-state system; averages over 1000 samples of
one full period via `np.mean`. -/
def solveFW (c : Config) : Result :=
  let A := FW.A c
  let B := FW.B c
  let wt_values := linspace 0 (2 * π) 1000
  let current_values := wt_values.map (FW.current_function c A B)
  let Iavg := npMean current_values
  let Irms := Real.sqrt (npMean (current_values.map (· ^ 2)))
  let voltage_values := wt_values.map fun wt =>
    if wt < π then c.Vm * Real.sin wt else 0
  let Vavg := npMean voltage_values
  let Vrms := Real.sqrt (npMean (voltage_values.map (· ^ 2)))
  let Vs_rms := c.Vm / Real.sqrt 2
  let power := Irms ^ 2 * c.R
  let Pdc := Vavg * Iavg
  let Prms := Vrms * Irms
  { alpha := 0
    beta := π
    A := A
    conducting_angle := π - 0
    conducting_time := 1000 * (π - 0) / c.w
    Iavg := Iavg
    Irms := Irms
    Vavg := Vavg
    Vrms := Vrms
    power := power
    power_factor := if 0 < Vs_rms * Irms then power / (Vs_rms * Irms) else 0
    form_factor := form_factor_of Vrms Vavg
    ripple_factor := ripple_factor_of Vrms Vavg
    efficiency := if 0 < Prms then Pdc / Prms else 0 }

/-- A resistive-inductive configuration with no opposing DC source:
`Vm = 1, f = 1, R = 1, L = 1, Vdc = 0`. -/
def c0 : Config := { Vm := 1, f := 1, R := 1, L := 1, Vdc := 0 }

/-- A configuration with an opposing DC source at half the peak voltage:
`Vm = 2, f = 1, R = 1, L = 1, Vdc = 1`, so `Vdc/Vm = 1/2` and the
minimum conduction angle is `arcsin(1/2) = pi/6`. -/
def c1 : Config := { Vm := 2, f := 1, R := 1, L := 1, Vdc := 1 }

/-- The pure resistive half-wave load of the closed-form check:
`Vm = 10, f = 50, R = 10, L = 0, Vdc = 0`. -/
def cL0 : Config := { Vm := 10, f := 50, R := 10, L := 0, Vdc := 0 }

lemma alpha_min_c0 : alpha_min c0 = 0 := by
  simp [alpha_min, c0, npArcsin, pymax0, Real.arcsin_zero]

lemma alpha_min_c1 : alpha_min c1 = π / 6 := by
  have harc : Real.arcsin (1 / 2) = π / 6 := by
    have h6 : Real.sin (π / 6) = 1 / 2 := Real.sin_pi_div_six
    have h1 : -(π / 2) ≤ π / 6 := by linarith [Real.pi_pos]
    have h2 : π / 6 ≤ π / 2 := by linarith [Real.pi_pos]
    calc Real.arcsin (1 / 2) = Real.arcsin (Real.sin (π / 6)) := by rw [h6]
      _ = π / 6 := Real.arcsin_sin h1 h2
  have hmin : min (1 : ℝ) ((1 : ℝ) / 2) = 1 / 2 := by norm_num
  have hmem : -1 ≤ (1 : ℝ) / 2 ∧ (1 : ℝ) / 2 ≤ 1 := by norm_num
  simp only [alpha_min, c1, npArcsin, pymax0, hmin, hmem, if_true, and_self]
  rw [harc]
  exact max_eq_right (by positivity)

lemma alpha_min_cL0 : alpha_min cL0 = 0 := by
  simp [alpha_min, cL0, npArcsin, pymax0, Real.arcsin_zero]

lemma pymax0_npArcsin_eq (r : ℝ) :
    pymax0 (npArcsin (min 1 r)) = max 0 (Real.arcsin (max (-1) (min 1 r))) := by
  by_cases h : -1 ≤ min 1 r
  · rw [npArcsin, if_pos ⟨h, min_le_left 1 r⟩, max_eq_right h]
    rfl
  · rw [npArcsin, if_neg (fun hc => absurd hc.1 h),
      max_eq_left (le_of_lt (not_le.mp h)), Real.arcsin_neg_one,
      max_eq_left (by linarith [Real.pi_pos])]
    rfl

lemma ite_true_false (p : Prop) [Decidable p] :
    (if p then true else false) = true ↔ p := by
  by_cases h : p <;> simp [h]

/-- C1 (amended): only the controlled full-wave solver has a
non-operating branch: when `specified_alpha < alpha_min` it returns the
pegged record (`Iavg = Irms = 0`, `Vavg = Vrms = Vdc`, `form_factor = 1`,
`ripple_factor = 0`, `efficiency = 0`) without consulting the turn-off
root-finder (the result does not depend on `rb`).  The controlled
half-wave solver has no such branch: it raises the firing angle to
`max(specified_alpha, alpha_min)` and proceeds with root-finding. -/
theorem claimC1_amended (c : Config) (specified_alpha : ℝ) (rb : Option ℝ)
    (rb2 : ℝ) (h : specified_alpha < alpha_min c) :
    (solveCFW c specified_alpha rb).toResult = nonOperatingResult c specified_alpha ∧
    (solveCFW c specified_alpha rb).is_continuous = false ∧
    (solveCHW c specified_alpha rb2).alpha = max specified_alpha (alpha_min c) := by
  refine ⟨?_, ?_, rfl⟩ <;> simp [solveCFW, h]

/-- Witness for C1 at `c1` (`Vdc/Vm = 1/2`, so `alpha_min = pi/6 > 0`)
with firing angle `0`. -/
theorem claimC1_witness :
    (0 : ℝ) < alpha_min c1 ∧
    (solveCFW c1 0 (some 5)).toResult = nonOperatingResult c1 0 := by
  have h : (0 : ℝ) < alpha_min c1 := by rw [alpha_min_c1]; positivity
  exact ⟨h, (claimC1_amended c1 0 (some 5) 5 h).1⟩

/-- C1 counterexample: at `c1` with firing angle `0 < alpha_min = pi/6`
the controlled half-wave solver does not enter a non-operating state:
its conducting angle is nonzero and its `beta` depends on the value the
root-finder returns, so root-finding does take place. -/
theorem claimC1_counterexample :
    (0 : ℝ) < alpha_min c1 ∧
    (solveCHW c1 0 π).conducting_angle ≠ 0 ∧
    (solveCHW c1 0 π).beta ≠ (solveCHW c1 0 (π / 2)).beta := by
  have hmax : max (0 : ℝ) (alpha_min c1) = π / 6 := by
    rw [alpha_min_c1]; exact max_eq_right (by positivity)
  have hpi : ¬ (π < max (0 : ℝ) (alpha_min c1)) := by
    rw [hmax]; linarith [Real.pi_pos]
  have hpi2 : ¬ (π / 2 < max (0 : ℝ) (alpha_min c1)) := by
    rw [hmax]; linarith [Real.pi_pos]
  refine ⟨by rw [alpha_min_c1]; positivity, ?_, ?_⟩
  · show (if π < max (0 : ℝ) (alpha_min c1) then π + 2 * π else π)
        - max (0 : ℝ) (alpha_min c1) ≠ 0
    rw [if_neg hpi, hmax]
    intro hcon
    nlinarith [Real.pi_pos]
  · show (if π < max (0 : ℝ) (alpha_min c1) then π + 2 * π else π)
        ≠ (if π / 2 < max (0 : ℝ) (alpha_min c1) then π / 2 + 2 * π else π / 2)
    rw [if_neg hpi, if_neg hpi2]
    intro hcon
    nlinarith [Real.pi_pos]

/-- C2: on root-finder failure the full-wave solvers silently default
`beta` (`pi` for the controlled solver, `alpha` for the uncontrolled
one) and carry on; no `SolverDivergenceError` is defined or raised
anywhere in the code.  Evaluated here at `c0` with the `fsolve` call
raising (`rb = none`): both solvers return an ordinary result record. -/
theorem claimC2_code_bug :
    (solveCFW c0 0 none).toResult.beta = π ∧
    (solveUFW c0 none).toResult.beta = (solveUFW c0 none).toResult.alpha := by
  constructor
  · simp [solveCFW, alpha_min_c0]
  · simp [solveUFW]

/-- C3 counterexample: with `R = -1 ≤ 0` and `f = -1 ≤ 0` construction
succeeds and returns an ordinary configuration — there is no
`ConfigurationError`. -/
theorem claimC3_counterexample :
    ((-1 : ℝ) ≤ 0) ∧
    base_solver_init 1 (-1) (-1) 1 0 =
      Except.ok { Vm := 1, f := -1, R := -1, L := 1, Vdc := 0 } ∧
    base_solver_init 1 (-1) (-1) 1 0 ≠ Except.error PyError.configurationError := by
  refine ⟨by norm_num, by norm_num [base_solver_init], ?_⟩
  norm_num [base_solver_init]
  exact fun hcon => Except.noConfusion hcon

/-- C3 (amended): `BaseRectifierSolver.__init__` performs no parameter
validation: for every `R ≠ 0` (including `R < 0` and `f ≤ 0`)
construction succeeds and the derived quantities `Z`, `theta`, `tau`,
`wTau` are computed directly from the parameters; the only construction
failure is Python's `ZeroDivisionError` at `R = 0`, never a
`ConfigurationError`. -/
theorem claimC3_amended (Vm f R L Vdc : ℝ) (h : R ≠ 0) :
    base_solver_init Vm f R L Vdc =
      Except.ok { Vm := Vm, f := f, R := R, L := L, Vdc := Vdc } ∧
    (Config.mk Vm f R L Vdc).Z = Real.sqrt (R ^ 2 + (2 * π * f * L) ^ 2) ∧
    (Config.mk Vm f R L Vdc).theta = Real.arctan (2 * π * f * L / R) ∧
    (Config.mk Vm f R L Vdc).tau = L / R ∧
    (Config.mk Vm f R L Vdc).wTau = 2 * π * f * (L / R) := by
  exact ⟨by simp [base_solver_init, h], rfl, rfl, rfl, rfl⟩

/-- Witness for C3 at `R = -1`. -/
theorem claimC3_witness :
    ((-1 : ℝ) ≠ 0) ∧
    base_solver_init 1 1 (-1) 1 0 =
      Except.ok { Vm := 1, f := 1, R := -1, L := 1, Vdc := 0 } := by
  have h : (-1 : ℝ) ≠ 0 := by norm_num
  exact ⟨h, (claimC3_amended 1 1 (-1) 1 0 h).1⟩

/-- C4 (amended): the controlled full-wave solver classifies Continuous
exactly when `beta > pi + alpha`, but the uncontrolled full-wave solver
classifies Continuous exactly when `beta > pi`, with no `alpha` term. -/
theorem claimC4_amended (c : Config) (s : ℝ) (rb ror : Option ℝ) :
    ((solveCFW c s rb).is_continuous = true ↔
      π + (solveCFW c s rb).toResult.alpha < (solveCFW c s rb).toResult.beta) ∧
    ((solveUFW c ror).is_continuous = true ↔
      π < (solveUFW c ror).toResult.beta) := by
  constructor
  · by_cases hop : s < alpha_min c
    · simp only [solveCFW, if_pos hop, nonOperatingResult]
      simp only [Bool.false_eq_true, false_iff, not_lt]
      linarith [Real.pi_pos]
    · simp only [solveCFW, if_neg hop]
      exact ite_true_false _
  · exact ite_true_false _

/-- C4 counterexample: at `c1` (`alpha = arcsin(1/2) = pi/6`) with the
root-finder returning `beta = pi + pi/12`, the uncontrolled full-wave
solver classifies Continuous although `beta ≤ pi + alpha`, contradicting
the claimed `beta > pi + alpha` rule. -/
theorem claimC4_counterexample :
    (solveUFW c1 (some (π + π / 12))).is_continuous = true ∧
    ¬ (π + (solveUFW c1 (some (π + π / 12))).toResult.alpha <
        (solveUFW c1 (some (π + π / 12))).toResult.beta) := by
  have hwrap : ¬ (π + π / 12 < alpha_min c1) := by
    rw [alpha_min_c1]; linarith [Real.pi_pos]
  constructor
  · show (if π < (if π + π / 12 < alpha_min c1 then π + π / 12 + π else π + π / 12)
        then true else false) = true
    rw [if_neg hwrap, if_pos (by linarith [Real.pi_pos])]
  · show ¬ (π + alpha_min c1 <
        (if π + π / 12 < alpha_min c1 then π + π / 12 + π else π + π / 12))
    rw [if_neg hwrap, alpha_min_c1]
    linarith [Real.pi_pos]

/-- C5: with a pure resistive load (`L = 0`, `Vdc = 0`) the half-wave
uncontrolled solver never produces the closed forms: `wTau = w*L/R = 0`
and `alpha = 0`, so the scalar division `-alpha/wTau` inside
`equation_for_A` raises `ZeroDivisionError` in the first `fsolve` call
(`alpha` is Python's integer `0` there, and int-by-float-zero division
raises).  The claimed `alpha = 0` does hold up to that point. -/
theorem claimC5_code_bug :
    solve_rectifier_raises cL0 (alpha_min cL0) ∧ alpha_min cL0 = 0 := by
  refine ⟨⟨?_, alpha_min_cL0⟩, alpha_min_cL0⟩
  norm_num [Config.wTau, Config.w, Config.tau, cL0]

/-- C6 (amended): the solvers enforce only a single upward wrap
(`beta += period` when the found root lies below `alpha`), so the
conducting angle is non-negative whenever the root-finder's value is at
least `alpha - period`; it is not strictly positive (the uncontrolled
full-wave failure path yields `beta = alpha`) and no upper bound below
the topology period is enforced. -/
theorem claimC6_amended (c : Config) (rb : ℝ) (ror : Option ℝ)
    (h1 : alpha_min c - 2 * π ≤ rb)
    (h2 : ∀ x, ror = some x → alpha_min c - π ≤ x) :
    0 ≤ (solveUHW c rb).conducting_angle ∧
    0 ≤ (solveUFW c ror).toResult.conducting_angle := by
  constructor
  · show 0 ≤ (if rb < alpha_min c then rb + 2 * π else rb) - alpha_min c
    by_cases hlt : rb < alpha_min c
    · rw [if_pos hlt]; linarith
    · rw [if_neg hlt]; push_neg at hlt; linarith
  · cases ror with
    | none =>
        show 0 ≤ (if alpha_min c < alpha_min c then alpha_min c + π
            else alpha_min c) - alpha_min c
        rw [if_neg (lt_irrefl _)]
        simp
    | some x =>
        have hx := h2 x rfl
        show 0 ≤ (if x < alpha_min c then x + π else x) - alpha_min c
        by_cases hlt : x < alpha_min c
        · rw [if_pos hlt]; linarith
        · rw [if_neg hlt]; push_neg at hlt; linarith

/-- Witness for C6 at `c0` with the half-wave root-finder returning `pi`
and the uncontrolled full-wave root-finder raising. -/
theorem claimC6_witness :
    (alpha_min c0 - 2 * π ≤ π) ∧
    0 ≤ (solveUHW c0 π).conducting_angle ∧
    0 ≤ (solveUFW c0 none).toResult.conducting_angle := by
  have h1 : alpha_min c0 - 2 * π ≤ π := by
    rw [alpha_min_c0]; linarith [Real.pi_pos]
  have h2 : ∀ x, (none : Option ℝ) = some x → alpha_min c0 - π ≤ x := by
    intro x hx; cases hx
  exact ⟨h1, (claimC6_amended c0 π none h1 h2).1, (claimC6_amended c0 π none h1 h2).2⟩

/-- C6 counterexample: the uncontrolled full-wave failure path produces
a solved case with conducting angle exactly `0` (not strictly
positive), and the half-wave solver accepts a root at `3*pi`, giving a
conducting angle of `3*pi`, which is not below the `2*pi` period. -/
theorem claimC6_counterexample :
    (solveUFW c0 none).toResult.conducting_angle = 0 ∧
    (solveUHW c0 (3 * π)).conducting_angle = 3 * π ∧
    ¬ (3 * π < 2 * π) := by
  refine ⟨?_, ?_, by linarith [Real.pi_pos]⟩
  · show (if alpha_min c0 < alpha_min c0 then alpha_min c0 + π
        else alpha_min c0) - alpha_min c0 = 0
    rw [if_neg (lt_irrefl _)]
    simp
  · show (if 3 * π < alpha_min c0 then 3 * π + 2 * π else 3 * π)
        - alpha_min c0 = 3 * π
    rw [alpha_min_c0, if_neg (by linarith [Real.pi_pos] : ¬ (3 * π < (0:ℝ)))]
    simp

/-- C7: for every value of the ratio `Vdc/Vm` — including below `-1`,
where `np.arcsin` yields NaN and Python's `max(0, nan)` yields `0` —
the uncontrolled turn-on angle extensionally equals
`max(0, arcsin(clamp(Vdc/Vm, -1, 1)))`, so it is always a well-defined
real number. -/
theorem claimC7_confirmed (c : Config) (rb : ℝ) (ror : Option ℝ) :
    (solveUHW c rb).alpha =
      max 0 (Real.arcsin (max (-1) (min 1 (c.Vdc / c.Vm)))) ∧
    (solveUFW c ror).toResult.alpha =
      max 0 (Real.arcsin (max (-1) (min 1 (c.Vdc / c.Vm)))) := by
  exact ⟨pymax0_npArcsin_eq _, pymax0_npArcsin_eq _⟩

/-- C8 counterexample: the ripple-factor radicand is not clamped: with
`Vavg = 1 > 0` and `Vrms = 1/2` (the "rounding noise pushes `Vrms`
below `Vavg`" situation the claim addresses), `form_factor < 1` and
`np.sqrt(form_factor**2 - 1)` receives a negative radicand, producing
NaN. -/
theorem claimC8_counterexample :
    (0 : ℝ) < 1 ∧
    ripple_factor_of (1 / 2) 1 = none ∧
    form_factor_of (1 / 2) 1 < 1 := by
  refine ⟨one_pos, ?_, ?_⟩
  · norm_num [ripple_factor_of, form_factor_of, npSqrt]
  · norm_num [form_factor_of]

/-- C8 (amended): no clamp exists; whenever `Vavg > 0` the code computes
`ripple_factor = sqrt((Vrms/Vavg)^2 - 1)` unguarded.  When additionally
`Vrms ≥ Vavg`, `form_factor ≥ 1` and the ripple factor is a
well-defined non-negative real; when `Vrms < Vavg` it is NaN. -/
theorem claimC8_amended (Vrms Vavg : ℝ) (h0 : 0 < Vavg) (h1 : Vavg ≤ Vrms) :
    1 ≤ form_factor_of Vrms Vavg ∧
    ripple_factor_of Vrms Vavg =
      some (Real.sqrt ((form_factor_of Vrms Vavg) ^ 2 - 1)) ∧
    0 ≤ Real.sqrt ((form_factor_of Vrms Vavg) ^ 2 - 1) := by
  have hff : 1 ≤ form_factor_of Vrms Vavg := by
    rw [form_factor_of, if_pos h0]
    exact (one_le_div h0).mpr h1
  have hrad : 0 ≤ (form_factor_of Vrms Vavg) ^ 2 - 1 := by nlinarith
  refine ⟨hff, ?_, Real.sqrt_nonneg _⟩
  rw [ripple_factor_of, if_pos h0, npSqrt, if_neg (not_lt.mpr hrad)]

/-- Witness for C8 at `Vrms = 2`, `Vavg = 1`. -/
theorem claimC8_witness :
    (0 : ℝ) < 1 ∧ (1 : ℝ) ≤ 2 ∧
    1 ≤ form_factor_of 2 1 ∧
    ripple_factor_of 2 1 = some (Real.sqrt ((form_factor_of 2 1) ^ 2 - 1)) := by
  have h0 : (0 : ℝ) < 1 := one_pos
  have h1 : (1 : ℝ) ≤ 2 := by norm_num
  exact ⟨h0, h1, (claimC8_amended 2 1 h0 h1).1, (claimC8_amended 2 1 h0 h1).2.1⟩

/-- C9: the freewheeling solver always has `alpha = 0` and `beta = pi`,
and the solved coefficients `(A, B)` satisfy the periodicity condition
(main-diode current at `0` equals freewheeling current at `2*pi`) and
the continuity condition (the branch currents agree at `pi`) — exactly,
hence within any solver tolerance. -/
theorem claimC9_confirmed (c : Config) (h : 0 < c.wTau) :
    (solveFW c).alpha = 0 ∧ (solveFW c).beta = π ∧
    FW.i_0_pos c (FW.A c) = FW.i_2pi_neg c (FW.B c) ∧
    FW.i_pi_pos c (FW.A c) = FW.i_pi_neg (FW.B c) := by
  have harg : -π / c.wTau < 0 :=
    div_neg_of_neg_of_pos (by linarith [Real.pi_pos]) h
  have hlt : Real.exp (-π / c.wTau) < 1 := by
    calc Real.exp (-π / c.wTau) < Real.exp 0 := Real.exp_lt_exp.mpr harg
      _ = 1 := Real.exp_zero
  have hpos : (0 : ℝ) < Real.exp (-π / c.wTau) := Real.exp_pos _
  have hne : Real.exp (-π / c.wTau) ^ 2 - 1 ≠ 0 := by nlinarith
  refine ⟨rfl, rfl, ?_, ?_⟩
  · unfold FW.i_0_pos FW.i_2pi_neg FW.A FW.B FW.E
    rw [show (-(2 * π - π) : ℝ) = -π by ring]
    ring
  · unfold FW.i_pi_pos FW.i_pi_neg FW.A FW.B FW.E
    field_simp
    ring

/-- Witness for C9 at `c0` (`wTau = 2*pi > 0`). -/
theorem claimC9_witness :
    0 < c0.wTau ∧
    ((solveFW c0).alpha = 0 ∧ (solveFW c0).beta = π ∧
      FW.i_0_pos c0 (FW.A c0) = FW.i_2pi_neg c0 (FW.B c0) ∧
      FW.i_pi_pos c0 (FW.A c0) = FW.i_pi_neg (FW.B c0)) := by
  have h : 0 < c0.wTau := by
    norm_num [Config.wTau, Config.w, Config.tau, c0, Real.pi_pos]
  exact ⟨h, claimC9_confirmed c0 h⟩

/-- C10: the freewheeling constructor discards the caller-supplied
`Vdc` (both directly and through the factory, which does not even
forward it), so the constructed configuration — and hence every solver
output — is independent of the `Vdc` argument, and the freewheeling
current equation carries no `-Vdc/R` term: its main-diode branch equals
the base current equation evaluated at `Vdc = 0`. -/
theorem claimC10_confirmed (Vm f R L v1 v2 fa : ℝ) :
    FWHW_init Vm f R L v1 = FWHW_init Vm f R L v2 ∧
    (FWHW_init Vm f R L v1).Vdc = 0 ∧
    create_solver_half_fwd Vm f R L v1 fa = create_solver_half_fwd Vm f R L v2 fa ∧
    solveFW (FWHW_init Vm f R L v1) = solveFW (FWHW_init Vm f R L v2) ∧
    (∀ c : Config, ∀ A B wt : ℝ,
      FW.current_function c A B wt =
        if wt < π then current_function { c with Vdc := 0 } A wt
        else B * Real.exp (-(wt - π) / c.wTau)) := by
  refine ⟨rfl, rfl, rfl, rfl, ?_⟩
  intro c A B wt
  unfold FW.current_function current_function
  by_cases hw : wt < π
  · rw [if_pos hw, if_pos hw]
    simp [Config.Z, Config.theta, Config.wTau, Config.w, Config.tau]
  · rw [if_neg hw, if_neg hw]

end RectifierSolver
